import Mathlib

/-!
A shallow embedding of the rxec task scheduler (src/src/main.rs) and proofs
about its task queue, scheduler admission loop, execution harness and result
persistence.

Conventions:
  - Rust u32 counters are modelled as Nat; where the source performs a
    decrement we additionally prove the operand is positive, so the Nat
    truncating subtraction agrees with the u32 subtraction (no underflow).
  - The VecDeque front is the head of the Lean list.
  - Byte buffers are modelled as List Nat.
-/

namespace Rxec

/-- One schedulable invocation: mirrors `struct Task ⟨cmd, args, number⟩`
in main.rs. `number` is the u32 repeat counter. -/
structure Task where
  cmd : String
  args : List String
  number : Nat
deriving Repr, DecidableEq

/-- `struct Tasks(pub VecDeque<Task>)`: the FIFO backlog; head of the list is
the front of the deque. -/
structure Tasks where
  queue : List Task
deriving Repr, DecidableEq

/-- `Tasks::pop`: if the front task has `number > 1`, decrement it in place and
return a clone (which therefore also carries the decremented number); otherwise
remove the front task, decrement its number, and return it. Returns `none` on
an empty queue. Mirrors main.rs `impl Tasks { pub fn pop ... }`. -/
def Tasks.pop (ts : Tasks) : Option Task × Tasks :=
  match ts.queue with
  | [] => (none, ts)
  | t :: rest =>
    if t.number > 1 then
      let t2 : Task := { t with number := t.number - 1 }
      (some t2, ⟨t2 :: rest⟩)
    else
      (some { t with number := t.number - 1 }, ⟨rest⟩)

/-- `Tasks::is_empty`. -/
def Tasks.isEmpty (ts : Tasks) : Bool :=
  ts.queue.isEmpty

/-- Construction of one task in `run`: the command is `conf.cmd[0]`, the shared
arguments are `conf.cmd[1..]`, and the variant `arg` is appended only when it
is not the empty string; `number` is `conf.number`. -/
def buildTask (cmd0 : String) (shared : List String) (number : Nat)
    (arg : String) : Task :=
  { cmd := cmd0
    args := if arg ≠ "" then shared ++ [arg] else shared
    number := number }

/-- The queue built in `run` from the variant list `conf.args`, in order. -/
def buildTasks (cmd0 : String) (shared : List String) (number : Nat)
    (variants : List String) : Tasks :=
  ⟨variants.map (buildTask cmd0 shared number)⟩

/-- Sum of the repeat counters, plus the queue length: a strictly decreasing
measure for repeated popping. -/
def Tasks.measure (ts : Tasks) : Nat :=
  (ts.queue.map Task.number).sum + ts.queue.length

/-- Total number of remaining repeats in the queue. -/
def Tasks.total (ts : Tasks) : Nat :=
  (ts.queue.map Task.number).sum

/-- Fuelled exhaustive popping: pops until the queue is empty (or fuel runs
out), returning the popped tasks in order together with the final queue. -/
def drainFuel : Nat → Tasks → List Task × Tasks
  | 0, ts => ([], ts)
  | fuel + 1, ts =>
    match ts.pop with
    | (none, _) => ([], ts)
    | (some t, ts2) =>
      let r := drainFuel fuel ts2
      (t :: r.1, r.2)

/-- The full pop sequence of a queue over its lifetime: `Tasks.measure` is
always enough fuel (proved below). -/
def Tasks.drain (ts : Tasks) : List Task × Tasks :=
  drainFuel ts.measure ts

-- Basic facts about pop ------------------------------------------------------

theorem pop_empty (ts : Tasks) (h : ts.queue = []) : ts.pop = (none, ts) := by
  simp [Tasks.pop, h]

theorem pop_nil : Tasks.pop ⟨[]⟩ = (none, ⟨[]⟩) := rfl

theorem pop_cons_gt (t : Task) (rest : List Task) (h : t.number > 1) :
    Tasks.pop ⟨t :: rest⟩ =
      (some { t with number := t.number - 1 },
       ⟨{ t with number := t.number - 1 } :: rest⟩) := by
  simp [Tasks.pop, h]

theorem pop_cons_le (t : Task) (rest : List Task) (h : ¬ t.number > 1) :
    Tasks.pop ⟨t :: rest⟩ =
      (some { t with number := t.number - 1 }, ⟨rest⟩) := by
  simp [Tasks.pop, h]

theorem pop_none_iff (ts : Tasks) : (ts.pop).1 = none ↔ ts.queue = [] := by
  cases ts with
  | mk q =>
    cases q with
    | nil => simp [Tasks.pop]
    | cons t rest =>
      constructor
      · intro h
        by_cases hgt : t.number > 1
        · rw [pop_cons_gt t rest hgt] at h; simp at h
        · rw [pop_cons_le t rest hgt] at h; simp at h
      · intro h; simp at h

/-- Popping a non-empty queue strictly decreases the measure. -/
theorem pop_measure_lt (ts : Tasks) (h : ts.queue ≠ []) :
    ((ts.pop).2).measure < ts.measure := by
  cases ts with
  | mk q =>
    cases q with
    | nil => exact absurd rfl h
    | cons t rest =>
      by_cases hgt : t.number > 1
      · rw [pop_cons_gt t rest hgt]
        simp [Tasks.measure]
        omega
      · rw [pop_cons_le t rest hgt]
        simp [Tasks.measure]
        omega

-- Draining the queue ---------------------------------------------------------

/-- The queue invariant established at construction time: every task still in
the backlog has a positive repeat counter. -/
def Tasks.inv (ts : Tasks) : Prop :=
  ∀ t ∈ ts.queue, 1 ≤ t.number

/-- Popping preserves the positivity invariant. -/
theorem pop_inv (ts : Tasks) (hinv : ts.inv) : ((ts.pop).2).inv := by
  cases ts with
  | mk q =>
    cases q with
    | nil => simpa [Tasks.pop] using hinv
    | cons t rest =>
      by_cases hgt : t.number > 1
      · rw [pop_cons_gt t rest hgt]
        intro u hu
        rcases List.mem_cons.mp hu with h1 | h2
        · subst h1; simp; omega
        · exact hinv u (List.mem_cons_of_mem _ h2)
      · rw [pop_cons_le t rest hgt]
        intro u hu
        exact hinv u (List.mem_cons_of_mem _ hu)

/-- Under the invariant, each pop from a non-empty queue consumes exactly one
remaining repeat. -/
theorem pop_total (ts : Tasks) (h : ts.queue ≠ []) (hinv : ts.inv) :
    ((ts.pop).2).total + 1 = ts.total := by
  cases ts with
  | mk q =>
    cases q with
    | nil => exact absurd rfl h
    | cons t rest =>
      have ht : 1 ≤ t.number := hinv t (List.mem_cons_self _ _)
      by_cases hgt : t.number > 1
      · rw [pop_cons_gt t rest hgt]
        simp [Tasks.total]
        omega
      · rw [pop_cons_le t rest hgt]
        simp [Tasks.total]
        omega

/-- Given enough fuel, exhaustive popping ends with the empty queue. -/
theorem drainFuel_final (fuel : Nat) :
    ∀ ts : Tasks, ts.measure ≤ fuel → ((drainFuel fuel ts).2).queue = [] := by
  induction fuel with
  | zero =>
    intro ts hle
    cases hq : ts.queue with
    | nil => simp [drainFuel, hq]
    | cons t rest =>
      exfalso
      have : ts.queue.length ≤ ts.measure := by
        unfold Tasks.measure; omega
      rw [hq] at this
      simp at this
      omega
  | succ n ih =>
    intro ts hle
    cases hp : ts.pop with
    | mk o ts2 =>
      cases o with
      | none =>
        have hq : ts.queue = [] := by
          have := (pop_none_iff ts).mp (by rw [hp])
          exact this
        simp [drainFuel, hp, hq]
      | some t =>
        have hq : ts.queue ≠ [] := by
          intro hnil
          rw [pop_empty ts hnil] at hp
          injection hp with h1 _
          exact Option.noConfusion h1
        have hm : ts2.measure ≤ n := by
          have := pop_measure_lt ts hq
          rw [hp] at this
          simp at this
          omega
        have := ih ts2 hm
        simp [drainFuel, hp, this]

/-- Given enough fuel and the invariant, the number of successful pops over the
queue's lifetime is exactly the total number of remaining repeats. -/
theorem drainFuel_length (fuel : Nat) :
    ∀ ts : Tasks, ts.measure ≤ fuel → ts.inv →
      ((drainFuel fuel ts).1).length = ts.total := by
  induction fuel with
  | zero =>
    intro ts hle _
    cases hq : ts.queue with
    | nil => simp [drainFuel, Tasks.total, hq]
    | cons t rest =>
      exfalso
      have : ts.queue.length ≤ ts.measure := by
        unfold Tasks.measure; omega
      rw [hq] at this
      simp at this
      omega
  | succ n ih =>
    intro ts hle hinv
    cases hp : ts.pop with
    | mk o ts2 =>
      cases o with
      | none =>
        have hq : ts.queue = [] := (pop_none_iff ts).mp (by rw [hp])
        simp [drainFuel, hp, Tasks.total, hq]
      | some t =>
        have hq : ts.queue ≠ [] := by
          intro hnil
          rw [pop_empty ts hnil] at hp
          injection hp with h1 _
          exact Option.noConfusion h1
        have hm : ts2.measure ≤ n := by
          have := pop_measure_lt ts hq
          rw [hp] at this
          simp at this
          omega
        have hinv2 : ts2.inv := by
          have := pop_inv ts hinv
          rw [hp] at this
          exact this
        have htot : ts2.total + 1 = ts.total := by
          have := pop_total ts hq hinv
          rw [hp] at this
          exact this
        have := ih ts2 hm hinv2
        simp [drainFuel, hp, this]
        omega

/-- Over its lifetime a queue satisfying the invariant yields exactly
`Tasks.total` pops, and the queue left behind is empty. -/
theorem drain_spec (ts : Tasks) (hinv : ts.inv) :
    ((ts.drain).1).length = ts.total ∧ ((ts.drain).2).queue = [] :=
  ⟨drainFuel_length ts.measure ts le_rfl hinv,
   drainFuel_final ts.measure ts le_rfl⟩

/-- Every task built in `run` starts with `number = conf.number`. -/
theorem buildTasks_inv (c : String) (a : List String) (r : Nat)
    (vs : List String) (hr : 1 ≤ r) : (buildTasks c a r vs).inv := by
  intro t ht
  simp [buildTasks] at ht
  rcases ht with ⟨v, _, rfl⟩
  simpa [buildTask]

/-- The total repeat budget of the built queue is `r * v`. -/
theorem buildTasks_total (c : String) (a : List String) (r : Nat)
    (vs : List String) : (buildTasks c a r vs).total = r * vs.length := by
  induction vs with
  | nil => simp [Tasks.total, buildTasks]
  | cons v rest ih =>
    simp [Tasks.total, buildTasks] at ih ⊢
    simp [buildTask, ih]
    ring

-- Result identity and log-file naming ----------------------------------------

/-- The first component of the tuple returned by `exec`:
`task.args.last().unwrap_or(&"".to_string()).clone()`. -/
def execTag (t : Task) : String :=
  (t.args.getLast?).getD ""

/-- The second component of the tuple returned by `exec`: `task.number`, the
counter value the task carried when it was popped. -/
def execRepeatIndex (t : Task) : Nat :=
  t.number

/-- The log path built in `run`: `format!("\x7boutput_path\x7d/\x7barg\x7d-\x7bnum\x7d.log")`. -/
def logFileName (outputPath arg : String) (num : Nat) : String :=
  outputPath ++ "/" ++ arg ++ "-" ++ toString num ++ ".log"

theorem drainFuel_nil (f : Nat) : drainFuel f ⟨[]⟩ = ([], ⟨[]⟩) := by
  cases f with
  | zero => rfl
  | succ n => rfl

/-- The lifetime pop sequence of a single unit with counter `r ≥ 1`: `r` tasks
carrying the counters `r-1, r-2, ..., 0` in that order. -/
theorem drainFuel_single (c : String) (a : List String) :
    ∀ r, 1 ≤ r → ∀ fuel, r + 1 ≤ fuel →
      (drainFuel fuel ⟨[{ cmd := c, args := a, number := r }]⟩).1
        = (List.range r).reverse.map
            (fun k => { cmd := c, args := a, number := k }) := by
  intro r hr
  induction r, hr using Nat.le_induction with
  | base =>
    intro fuel hf
    cases fuel with
    | zero => omega
    | succ f =>
      have h1 : ¬ ({ cmd := c, args := a, number := 1 } : Task).number > 1 := by
        simp
      have hstep := pop_cons_le { cmd := c, args := a, number := 1 } [] h1
      simp at hstep
      simp [drainFuel, hstep, drainFuel_nil, List.range_succ]
  | succ n hn ih =>
    intro fuel hf
    cases fuel with
    | zero => omega
    | succ f =>
      have hgt : n + 1 > 1 := by omega
      have hstep := pop_cons_gt { cmd := c, args := a, number := n + 1 } [] hgt
      simp at hstep
      simp [drainFuel, hstep, ih f (by omega), List.range_succ]

-- C5: the queue yields exactly r * v pops over its lifetime ------------------

/-- C5: for every repeat count `r ≥ 1` and every variant list, the queue built
by `run` yields exactly `r * v` successful pops over its lifetime (`v` the
number of variants), after which `pop` returns `none` and `is_empty` is true. -/
theorem C5_pop_count (c : String) (a : List String) (r : Nat)
    (vs : List String) (hr : 1 ≤ r) :
    (((buildTasks c a r vs).drain).1).length = r * vs.length ∧
    (((buildTasks c a r vs).drain).2).pop.1 = none ∧
    (((buildTasks c a r vs).drain).2).isEmpty = true := by
  have hinv := buildTasks_inv c a r vs hr
  obtain ⟨hlen, hq⟩ := drain_spec (buildTasks c a r vs) hinv
  refine ⟨?_, ?_, ?_⟩
  · rw [hlen, buildTasks_total]
  · exact (pop_none_iff _).mpr hq
  · simp [Tasks.isEmpty, hq]

/-- C5 at a concrete input: 2 variants × 3 repeats gives 6 pops then empty. -/
theorem C5_pop_count_witness :
    1 ≤ 3 ∧
    ((((buildTasks "prog" ["-v"] 3 ["a", "b"]).drain).1).length
        = 3 * ["a", "b"].length ∧
     (((buildTasks "prog" ["-v"] 3 ["a", "b"]).drain).2).pop.1 = none ∧
     (((buildTasks "prog" ["-v"] 3 ["a", "b"]).drain).2).isEmpty = true) :=
  ⟨by decide, C5_pop_count "prog" ["-v"] 3 ["a", "b"] (by decide)⟩

-- C1: repeat indices used for log-file naming --------------------------------

/-- C1 as stated is false: the claim says that within one variant of repeat
count `r` the naming index takes the values 1 through `r` (so with repeat
count 1 the single file for label L is `L-1.log`). In the code the tuple
returned by `exec` carries `task.number` as popped, which for repeat count 1
is 0, so the single file is `L-0.log`, not `L-1.log`. -/
theorem C1_counterexample :
    (((buildTasks "cmd" [] 1 ["x"]).drain).1).map execRepeatIndex = [0] ∧
    (((buildTasks "cmd" [] 1 ["x"]).drain).1).map
        (fun t => logFileName "out" (execTag t) (execRepeatIndex t))
      = ["out/x-0.log"] ∧
    "out/x-0.log" ≠ "out/x-1.log" := by
  decide

/-- C1 amended: within one variant of repeat count `r` the repeat index used
for naming decreases monotonically, taking the values `r-1` down to `0`, so
the log files for label `v` are `v-(r-1).log`, ..., `v-0.log` (with repeat
count 1, the single file is `v-0.log`). -/
theorem C1_amended_log_indices (c : String) (a : List String) (r : Nat)
    (v p : String) (hr : 1 ≤ r) (hv : v ≠ "") :
    (((buildTasks c a r [v]).drain).1).map execRepeatIndex
        = (List.range r).reverse ∧
    (((buildTasks c a r [v]).drain).1).map
        (fun t => logFileName p (execTag t) (execRepeatIndex t))
      = (List.range r).reverse.map (logFileName p v) := by
  have hb : buildTasks c a r [v]
      = ⟨[{ cmd := c, args := a ++ [v], number := r }]⟩ := by
    simp [buildTasks, buildTask, hv]
  have hm : (⟨[{ cmd := c, args := a ++ [v], number := r }]⟩ : Tasks).measure
      = r + 1 := by
    simp [Tasks.measure]
  rw [Tasks.drain, hb, hm, drainFuel_single c (a ++ [v]) r hr (r + 1) le_rfl]
  constructor
  · simp [execRepeatIndex, Function.comp_def]
  · simp [execTag, execRepeatIndex, logFileName, Function.comp_def]

/-- C1 amended, at a concrete input: repeat count 3 for variant "x" produces
indices 2, 1, 0 and files x-2.log, x-1.log, x-0.log. -/
theorem C1_amended_log_indices_witness :
    (1 ≤ 3 ∧ "x" ≠ "") ∧
    ((((buildTasks "cmd" [] 3 ["x"]).drain).1).map execRepeatIndex
        = (List.range 3).reverse ∧
     (((buildTasks "cmd" [] 3 ["x"]).drain).1).map
        (fun t => logFileName "out" (execTag t) (execRepeatIndex t))
      = (List.range 3).reverse.map (logFileName "out" "x")) :=
  ⟨⟨by decide, by decide⟩,
   C1_amended_log_indices "cmd" [] 3 "x" "out" (by decide) (by decide)⟩

-- C4: the tag carried by a completed run -------------------------------------

/-- C4 as stated is false: for the unit built from the empty-string variant
with a non-empty shared argument list, the tag returned by `exec`
(`task.args.last().unwrap_or("")`) is the last shared argument, not the empty
string. -/
theorem C4_counterexample :
    execTag (buildTask "cmd" ["base"] 1 "") = "base" ∧
    execTag (buildTask "cmd" ["base"] 1 "") ≠ "" := by
  decide

/-- C4 amended: the tag on a completed run's result is the last element of its
argument list (or the empty string when the list is empty): for a non-empty
variant this is the variant itself, but for the empty-string variant it is the
last shared base argument, and the empty string only when there are no base
arguments. -/
theorem C4_amended_tag (c : String) (shared : List String) (n : Nat)
    (v : String) :
    execTag (buildTask c shared n v)
      = if v = "" then (shared.getLast?).getD "" else v := by
  by_cases hv : v = "" <;> simp [execTag, buildTask, hv]

-- Scheduler: admission and replenishment -------------------------------------

/-- The `Some(n)` initial-admission loop of `run` (`n ≥ 1`): pop and spawn
until `n` units have been pushed or the queue gives out. Returns the remaining
queue and the number of units spawned. -/
def popUpTo : Nat → Tasks → Tasks × Nat
  | 0, ts => (ts, 0)
  | n + 1, ts =>
    match ts.pop with
    | (none, _) => (ts, 0)
    | (some _, ts2) =>
      let r := popUpTo n ts2
      (r.1, r.2 + 1)

/-- Initial admission of `run`, by `conf.parallel`: `None` (Serial) pops one
unit via `pop().unwrap()` (the `none` result models the panic of `unwrap` on
an empty queue); `Some(0)` pops and spawns every unit; `Some(n)` with `n ≥ 1`
pops and spawns up to `n` units. Returns the remaining queue together with
the number of in-flight executions. -/
def initialAdmit (parallel : Option Nat) (ts : Tasks) : Option (Tasks × Nat) :=
  match parallel with
  | none =>
    match ts.pop with
    | (none, _) => none
    | (some _, ts2) => some (ts2, 1)
  | some 0 => some ((ts.drain).2, ((ts.drain).1).length)
  | some (n + 1) => some (popUpTo (n + 1) ts)

/-- One iteration of the completion loop
(`while let Some(res) = set.join_next().await`): one in-flight execution is
joined, and if the queue is non-empty exactly one replacement unit is popped
and spawned. The state is (queue, in-flight count). -/
def schedStep : Tasks × Nat → Tasks × Nat
  | (ts, k) => if ts.isEmpty then (ts, k - 1) else ((ts.pop).2, k)

/-- The target admission width of each policy: Serial admits one unit at a
time, `Some(n)` admits `n` at a time. -/
def targetWidth : Option Nat → Nat
  | none => 1
  | some n => n

theorem popUpTo_le (n : Nat) : ∀ ts : Tasks, (popUpTo n ts).2 ≤ n := by
  induction n with
  | zero => intro ts; simp [popUpTo]
  | succ m ih =>
    intro ts
    cases hp : ts.pop with
    | mk o ts2 =>
      cases o with
      | none => simp [popUpTo, hp]
      | some t => simpa [popUpTo, hp] using ih ts2

theorem schedStep_le (st : Tasks × Nat) : (schedStep st).2 ≤ st.2 := by
  cases st with
  | mk ts k =>
    by_cases h : ts.isEmpty <;> simp [schedStep, h]

theorem schedStep_iterate_le (j : Nat) :
    ∀ st : Tasks × Nat, (schedStep^[j] st).2 ≤ st.2 := by
  induction j with
  | zero => intro st; simp
  | succ n ih =>
    intro st
    rw [Function.iterate_succ_apply]
    exact le_trans (ih (schedStep st)) (schedStep_le st)

theorem schedStep_empty (ts : Tasks) (k : Nat) (h : ts.isEmpty = true) :
    schedStep (ts, k) = (ts, k - 1) := by
  simp [schedStep, h]

theorem schedStep_iterate_empty (j : Nat) :
    ∀ (ts : Tasks) (k : Nat), ts.isEmpty = true →
      schedStep^[j] (ts, k) = (ts, k - j) := by
  induction j with
  | zero => intro ts k _; simp
  | succ n ih =>
    intro ts k h
    rw [Function.iterate_succ_apply, schedStep_empty ts k h, ih ts (k - 1) h]
    congr 1
    omega

/-- C6: whenever the policy has a positive target width (Serial has width 1,
`Capped(N)` with `N ≥ 1` has width `N`), the in-flight count after initial
admission never exceeds the width at any point of the completion loop; each
completion admits at most one replacement (the count never increases across a
loop iteration), and once the queue is empty a completion strictly decreases
the count (no replacement is admitted). -/
theorem C6_inflight_bound (p : Option Nat) (hp : 1 ≤ targetWidth p)
    (ts : Tasks) (st : Tasks × Nat) (hinit : initialAdmit p ts = some st)
    (j : Nat) :
    (schedStep^[j] st).2 ≤ targetWidth p ∧
    (schedStep^[j + 1] st).2 ≤ (schedStep^[j] st).2 ∧
    ((schedStep^[j] st).1.isEmpty = true →
      (schedStep^[j + 1] st).2 = (schedStep^[j] st).2 - 1) := by
  have hst : st.2 ≤ targetWidth p := by
    cases p with
    | none =>
      cases hp2 : ts.pop with
      | mk o ts2 =>
        cases o with
        | none => simp [initialAdmit, hp2] at hinit
        | some t =>
          simp [initialAdmit, hp2] at hinit
          simp [targetWidth, ← hinit]
    | some n =>
      cases n with
      | zero => simp [targetWidth] at hp
      | succ m =>
        simp [initialAdmit] at hinit
        rw [← hinit]
        exact popUpTo_le (m + 1) ts
  refine ⟨le_trans (schedStep_iterate_le j st) hst, ?_, ?_⟩
  · rw [Function.iterate_succ_apply']
    exact schedStep_le _
  · intro hemp
    rw [Function.iterate_succ_apply']
    cases hje : schedStep^[j] st with
    | mk ts2 k2 =>
      rw [hje] at hemp
      simp at hemp
      rw [schedStep_empty ts2 k2 hemp]

/-- C6 at a concrete input: Capped(2) over a 3-pop queue, first loop
iteration. -/
theorem C6_inflight_bound_witness :
    (1 ≤ targetWidth (some 2) ∧
     initialAdmit (some 2) (buildTasks "c" [] 3 ["a"])
        = some (⟨[⟨"c", ["a"], 1⟩]⟩, 2)) ∧
    ((schedStep^[1] ((⟨[⟨"c", ["a"], 1⟩]⟩ : Tasks), 2)).2 ≤ targetWidth (some 2) ∧
     (schedStep^[1 + 1] ((⟨[⟨"c", ["a"], 1⟩]⟩ : Tasks), 2)).2
        ≤ (schedStep^[1] ((⟨[⟨"c", ["a"], 1⟩]⟩ : Tasks), 2)).2 ∧
     ((schedStep^[1] ((⟨[⟨"c", ["a"], 1⟩]⟩ : Tasks), 2)).1.isEmpty = true →
       (schedStep^[1 + 1] ((⟨[⟨"c", ["a"], 1⟩]⟩ : Tasks), 2)).2
          = (schedStep^[1] ((⟨[⟨"c", ["a"], 1⟩]⟩ : Tasks), 2)).2 - 1)) :=
  ⟨⟨by decide, by decide⟩,
   C6_inflight_bound (some 2) (by decide) (buildTasks "c" [] 3 ["a"])
     (⟨[⟨"c", ["a"], 1⟩]⟩, 2) (by decide) 1⟩

/-- C8: under `Some(0)` (the spec's Capped(0)), initial admission pops and
spawns all `r * v` units at once, the queue is already empty when the first
completion is observed, it stays empty at every later point, and every
completion merely decrements the in-flight count — no replenishment ever
occurs. -/
theorem C8_capped_zero_unbounded (c : String) (a : List String) (r : Nat)
    (vs : List String) (hr : 1 ≤ r) (st : Tasks × Nat)
    (h : initialAdmit (some 0) (buildTasks c a r vs) = some st) (j : Nat) :
    st.2 = r * vs.length ∧ st.1.isEmpty = true ∧
    (schedStep^[j] st).1.isEmpty = true ∧
    (schedStep^[j + 1] st).2 = (schedStep^[j] st).2 - 1 := by
  have hinv := buildTasks_inv c a r vs hr
  obtain ⟨hlen, hq⟩ := drain_spec (buildTasks c a r vs) hinv
  simp [initialAdmit] at h
  have h1 : st.1 = ((buildTasks c a r vs).drain).2 := by rw [← h]
  have h2 : st.2 = (((buildTasks c a r vs).drain).1).length := by rw [← h]
  have hemp : st.1.isEmpty = true := by
    simp [h1, Tasks.isEmpty, hq]
  refine ⟨?_, hemp, ?_, ?_⟩
  · rw [h2, hlen, buildTasks_total]
  · cases hs : st with
    | mk ts k =>
      rw [hs] at hemp
      simp at hemp
      rw [schedStep_iterate_empty j ts k hemp]
      simpa
  · cases hs : st with
    | mk ts k =>
      rw [hs] at hemp
      simp at hemp
      rw [schedStep_iterate_empty j ts k hemp,
          schedStep_iterate_empty (j + 1) ts k hemp]
      simp
      omega

/-- C8 at a concrete input: one variant, one repeat, policy `Some(0)`. -/
theorem C8_capped_zero_unbounded_witness :
    (1 ≤ 1 ∧
     initialAdmit (some 0) (buildTasks "c" [] 1 ["a"])
        = some ((⟨[]⟩ : Tasks), 1)) ∧
    (((⟨[]⟩ : Tasks), 1).2 = 1 * ["a"].length ∧
     ((⟨[]⟩ : Tasks), 1).1.isEmpty = true ∧
     (schedStep^[0] ((⟨[]⟩ : Tasks), 1)).1.isEmpty = true ∧
     (schedStep^[0 + 1] ((⟨[]⟩ : Tasks), 1)).2
        = (schedStep^[0] ((⟨[]⟩ : Tasks), 1)).2 - 1) :=
  ⟨⟨by decide, by decide⟩,
   C8_capped_zero_unbounded "c" [] 1 ["a"] (by decide) ((⟨[]⟩ : Tasks), 1)
     (by decide) 0⟩

-- Pacing interval (run -> exec) ----------------------------------------------

/-- The interval computed in `run` and handed to every `exec` call:
`if conf.parallel.is_some() \x7b None \x7d else \x7b Some(conf.interval) \x7d`. -/
def intervalFor (parallel : Option Nat) (interval : Nat) : Option Nat :=
  if parallel.isSome then none else some interval

/-- The post-run suspensions `exec` performs before returning (in seconds):
`tokio::time::sleep` for the interval when one was passed, nothing otherwise.
This runs on every invocation, also on the timeout and error paths, before
`res.map`. -/
def execPostRunSleeps (interval : Option Nat) : List Nat :=
  match interval with
  | some i => [i]
  | none => []

/-- C7: with policy Serial (`conf.parallel = None`) every harness invocation
suspends for the configured interval before returning; with any parallel or
capped policy (`conf.parallel = Some n`, any `n`) no pacing sleep is ever
performed. -/
theorem C7_pacing (i n : Nat) :
    execPostRunSleeps (intervalFor none i) = [i] ∧
    execPostRunSleeps (intervalFor (some n) i) = [] := by
  constructor <;> simp [intervalFor, execPostRunSleeps]

-- Stream redirection and capture (exec) ---------------------------------------

/-- Which standard streams `exec` redirects to capturable pipes when building
the command: the source calls only `command.stdout(Stdio::piped())`; standard
error is left at its default (inherited, not capturable). -/
structure SpawnConfig where
  stdoutPiped : Bool
  stderrPiped : Bool
deriving DecidableEq

/-- The configuration `exec` actually spawns with. -/
def execSpawnConfig : SpawnConfig :=
  { stdoutPiped := true, stderrPiped := false }

/-- The capturable stream handles of the spawned child: a handle exists
exactly for the streams that were piped (`child.stdout` / `child.stderr` are
`Some` only for piped streams). -/
structure ChildStreams where
  stdoutHandle : Option (List Nat)
  stderrHandle : Option (List Nat)
deriving DecidableEq

def spawnStreams (cfg : SpawnConfig) (outData errData : List Nat) :
    ChildStreams :=
  { stdoutHandle := if cfg.stdoutPiped then some outData else none
    stderrHandle := if cfg.stderrPiped then some errData else none }

/-- The natural-exit branch of `exec`: start from empty buffers, and
`read_to_end` each stream whose handle is present (`if let Some(mut stdout) =
child.stdout.take()`, likewise for stderr). Returns (stdout, stderr) of the
constructed `std::process::Output`. -/
def drainChild (cs : ChildStreams) : List Nat × List Nat :=
  ((cs.stdoutHandle).getD [], (cs.stderrHandle).getD [])

/-- The captured (stdout, stderr) bytes of the `Output` built by `exec` when
the child exits naturally, given the bytes the child actually wrote to each
stream. -/
def execCapturedOutput (outData errData : List Nat) : List Nat × List Nat :=
  drainChild (spawnStreams execSpawnConfig outData errData)

/-- C2 as stated is false: `exec` pipes only standard output; standard error
is never redirected to a capturable stream, so a child that writes bytes to
stderr produces a result whose stderr field is empty, not the captured
bytes. -/
theorem C2_counterexample :
    execSpawnConfig.stderrPiped = false ∧
    (execCapturedOutput [104, 105] [101, 114]).2 = [] ∧
    (execCapturedOutput [104, 105] [101, 114]).2 ≠ [101, 114] := by
  decide

/-- C2 amended: the child is spawned with standard output (only) redirected to
a capturable stream and, on natural exit, that stream is fully drained into
the result; standard error is not redirected, and the result's stderr bytes
are always empty. -/
theorem C2_amended_capture (outData errData : List Nat) :
    execSpawnConfig.stdoutPiped = true ∧
    execSpawnConfig.stderrPiped = false ∧
    execCapturedOutput outData errData = (outData, []) := by
  refine ⟨rfl, rfl, ?_⟩
  simp [execCapturedOutput, drainChild, spawnStreams, execSpawnConfig]

-- Result persistence (the completion loop) ------------------------------------

/-- Outcome of handling one joined result in the completion loop of `run`. -/
inductive SinkOutcome where
  /-- `tokio::fs::write` succeeded: the log file was written. -/
  | wrote (path : String)
  /-- `.expect("Failed to write output")` fired: the surrounding future
  panics, aborting the scheduler and the process. -/
  | aborted (msg : String)
  /-- The `_ => \x7b\x7d` arm: a failed/cancelled run is silently dropped. -/
  | skipped
deriving DecidableEq

/-- The `match res` at the bottom of the completion loop: a successful run
`Ok(Ok((arg, num, output)))` has its stdout written to
`\x7boutput_path\x7d/\x7barg\x7d-\x7bnum\x7d.log`, with any write error turned into a panic by
`expect`; every other result is dropped. `res = none` stands for the
`Err`/join-error arms; `writeOk` is whether `tokio::fs::write` succeeded. -/
def handleResult (outputPath : String) (res : Option (String × Nat × List Nat))
    (writeOk : Bool) : SinkOutcome :=
  match res with
  | some (arg, num, _bytes) =>
    if writeOk then SinkOutcome.wrote (logFileName outputPath arg num)
    else SinkOutcome.aborted "Failed to write output"
  | none => SinkOutcome.skipped

/-- Whether `run` reaches `std::fs::create_dir` at all: only when the built
queue is non-empty (the empty queue returns `Ok(())` first). -/
def createDirAttempted (c : String) (shared : List String) (r : Nat)
    (vs : List String) : Bool :=
  !(buildTasks c shared r vs).isEmpty

/-- The tasks spawned over the whole run: none when the queue is empty (early
return) or when `create_dir` fails (the `?` aborts `run` before `block_on`);
otherwise every unit the queue yields over its lifetime. -/
def spawnedTasks (c : String) (shared : List String) (r : Nat)
    (vs : List String) (dirOk : Bool) : List Task :=
  if (buildTasks c shared r vs).isEmpty then []
  else if dirOk then ((buildTasks c shared r vs).drain).1
  else []

/-- C3 as stated is false: a failure of `tokio::fs::write` on one completed
run's log file is not non-fatal — the `.expect("Failed to write output")`
panics, aborting the scheduler and the process. -/
theorem C3_counterexample :
    handleResult "out" (some ("x", 1, [104])) false
      = SinkOutcome.aborted "Failed to write output" ∧
    handleResult "out" (some ("x", 1, [104])) false ≠ SinkOutcome.skipped := by
  decide

/-- C3 amended: a failure to write a completed run's result file is fatal (the
completion loop panics with "Failed to write output" and the process aborts);
the output-directory creation failure is also fatal and aborts before any task
is spawned; failed runs are silently dropped without touching the disk. -/
theorem C3_amended_persistence (p : String) (arg : String) (num : Nat)
    (bytes : List Nat) (c : String) (shared : List String) (r : Nat)
    (vs : List String) :
    handleResult p (some (arg, num, bytes)) false
        = SinkOutcome.aborted "Failed to write output" ∧
    handleResult p (some (arg, num, bytes)) true
        = SinkOutcome.wrote (logFileName p arg num) ∧
    handleResult p none true = SinkOutcome.skipped ∧
    handleResult p none false = SinkOutcome.skipped ∧
    spawnedTasks c shared r vs false = [] := by
  refine ⟨rfl, rfl, rfl, rfl, ?_⟩
  by_cases h : (buildTasks c shared r vs).isEmpty <;> simp [spawnedTasks, h]

-- C9: empty variant list ------------------------------------------------------

/-- C9: with an empty variant list the built queue is empty, `run` returns
`Ok(())` immediately: `create_dir` is never reached (no filesystem artifact)
and no task is ever spawned. -/
theorem C9_empty_variants (c : String) (shared : List String) (r : Nat)
    (dirOk : Bool) :
    (buildTasks c shared r []).queue = [] ∧
    createDirAttempted c shared r [] = false ∧
    spawnedTasks c shared r [] dirOk = [] := by
  refine ⟨rfl, rfl, ?_⟩
  simp [spawnedTasks, Tasks.isEmpty, buildTasks]

-- C10: counter positivity, no u32 underflow, no unwrap panic -----------------

/-- The positivity invariant survives any number of pops. -/
theorem pop_iterate_inv (j : Nat) :
    ∀ ts : Tasks, ts.inv → ((fun u : Tasks => (u.pop).2)^[j] ts).inv := by
  induction j with
  | zero => intro ts h; simpa
  | succ n ih =>
    intro ts h
    rw [Function.iterate_succ_apply]
    exact ih _ (pop_inv ts h)

/-- C10: queues built with repeat count `r ≥ 1` satisfy the positivity
invariant, the invariant is preserved by every pop (so every task held in the
queue always has `number ≥ 1`); under the invariant the popped task's counter
is exactly the front counter minus one with a positive operand (so the u32
decrement in `pop` never underflows); and on a non-empty queue `pop` returns
`Some`, so both `pop().unwrap()` sites — the Serial initial admission, which
`initialAdmit none` models, and the replenishment step — never panic. -/
theorem C10_no_underflow_no_panic (c : String) (a : List String) (r : Nat)
    (vs : List String) (ts ts2 : Tasks) (t : Task) (j : Nat) (hr : 1 ≤ r)
    (hinv : ts.inv) (hne : ts.isEmpty = false) (hpop : ts.pop = (some t, ts2)) :
    (buildTasks c a r vs).inv ∧
    ((ts.pop).2).inv ∧
    ((fun u : Tasks => (u.pop).2)^[j] ts).inv ∧
    ((ts.queue.head?).map Task.number) = some (t.number + 1) ∧
    ((ts.pop).1).isSome = true ∧
    (initialAdmit none ts).isSome = true := by
  refine ⟨buildTasks_inv c a r vs hr, pop_inv ts hinv, pop_iterate_inv j ts hinv,
    ?_, ?_, ?_⟩
  · cases ts with
    | mk q =>
      cases q with
      | nil => simp [Tasks.pop] at hpop
      | cons t0 rest =>
        have ht0 : 1 ≤ t0.number := hinv t0 (List.mem_cons_self _ _)
        by_cases hgt : t0.number > 1
        · rw [pop_cons_gt t0 rest hgt] at hpop
          injection hpop with h1 _
          injection h1 with h1
          simp [← h1]
          omega
        · rw [pop_cons_le t0 rest hgt] at hpop
          injection hpop with h1 _
          injection h1 with h1
          simp [← h1]
          omega
  · have hq : ts.queue ≠ [] := by
      simpa [Tasks.isEmpty] using hne
    rcases ho : (ts.pop).1 with _ | t1
    · exact absurd ((pop_none_iff ts).mp ho) hq
    · simp
  · rcases hpo : ts.pop with ⟨o, tsr⟩
    cases o with
    | none =>
      rw [hpop] at hpo
      exact Option.noConfusion (congrArg Prod.fst hpo)
    | some t1 => simp [initialAdmit, hpo]

/-- C10 at a concrete input: a queue holding one unit with counter 2. -/
theorem C10_no_underflow_no_panic_witness :
    (1 ≤ 1 ∧ (Tasks.mk [⟨"c", ["a"], 2⟩]).inv ∧
     (Tasks.mk [⟨"c", ["a"], 2⟩]).isEmpty = false ∧
     (Tasks.mk [⟨"c", ["a"], 2⟩]).pop
        = (some ⟨"c", ["a"], 1⟩, Tasks.mk [⟨"c", ["a"], 1⟩])) ∧
    ((buildTasks "c" [] 1 ["x"]).inv ∧
     (((Tasks.mk [⟨"c", ["a"], 2⟩]).pop).2).inv ∧
     ((fun u : Tasks => (u.pop).2)^[2] (Tasks.mk [⟨"c", ["a"], 2⟩])).inv ∧
     (((Tasks.mk [⟨"c", ["a"], 2⟩]).queue.head?).map Task.number)
        = some ((⟨"c", ["a"], 1⟩ : Task).number + 1) ∧
     (((Tasks.mk [⟨"c", ["a"], 2⟩]).pop).1).isSome = true ∧
     (initialAdmit none (Tasks.mk [⟨"c", ["a"], 2⟩])).isSome = true) :=
  ⟨⟨by decide, by simp [Tasks.inv], by decide, by decide⟩,
   C10_no_underflow_no_panic "c" [] 1 ["x"] (Tasks.mk [⟨"c", ["a"], 2⟩])
     (Tasks.mk [⟨"c", ["a"], 1⟩]) ⟨"c", ["a"], 1⟩ 2 (by decide)
     (by simp [Tasks.inv]) (by decide) (by decide)⟩

end Rxec
